import Mathlib

/-!
Verification development for checkov/secrets/plugins/custom_regex_detector.py.

The Python module is embedded shallowly: Python dict/list/str/int/None values
become the inductive type `PyVal`; code that can raise returns `Except PyErr`;
the regex collaborator (the Python re module, used through `re.compile`,
`Pattern.findall`) is embedded as a small executable regex engine over the
construct fragment the detectors use, following the documented semantics of
`re.findall` (full match for zero groups, the group value for one group, a
tuple of group values for two or more groups; unmatched groups become the
empty string).
-/

/-- Embedding of the Python values that flow through the module:
None, bool, int, str, list and (string-keyed) dict. -/
inductive PyVal where
  | none
  | bool (b : Bool)
  | int (n : Int)
  | str (s : String)
  | list (xs : List PyVal)
  | dict (kvs : List (String × PyVal))
deriving Repr

/-- Embedding of the Python exceptions the module can raise. -/
inductive PyErr where
  | keyError (k : String)
  | typeError
  | yamlError
  | reError (pat : String)
  | fetchError
deriving DecidableEq, Repr

mutual

/-- Structural equality on embedded Python values (Python ==). -/
def PyVal.beq : PyVal → PyVal → Bool
  | .none, .none => true
  | .bool a, .bool b => a == b
  | .int a, .int b => a == b
  | .str a, .str b => a == b
  | .list xs, .list ys => PyVal.beqL xs ys
  | .dict xs, .dict ys => PyVal.beqD xs ys
  | _, _ => false

/-- Pointwise equality of embedded Python lists. -/
def PyVal.beqL : List PyVal → List PyVal → Bool
  | [], [] => true
  | x :: xs, y :: ys => PyVal.beq x y && PyVal.beqL xs ys
  | _, _ => false

/-- Pointwise equality of embedded Python dicts (entry order respected;
the module only ever compares scalar values, where this agrees with Python). -/
def PyVal.beqD : List (String × PyVal) → List (String × PyVal) → Bool
  | [], [] => true
  | (k, x) :: xs, (l, y) :: ys => k == l && PyVal.beq x y && PyVal.beqD xs ys
  | _, _ => false

end

instance : BEq PyVal := ⟨PyVal.beq⟩

/-- Python truthiness: None, False, 0, empty string/list/dict are falsy. -/
def PyVal.truthy : PyVal → Bool
  | .none => false
  | .bool b => b
  | .int n => !(n == 0)
  | .str s => !(s == "")
  | .list xs => !xs.isEmpty
  | .dict kvs => !kvs.isEmpty

/-- Python subscript `v[k]` with a string key: KeyError when a dict lacks the
key, TypeError when the value is not a dict (string/list subscripts take
integers in Python, so a string key raises TypeError there as well). -/
def PyVal.getItem (v : PyVal) (k : String) : Except PyErr PyVal :=
  match v with
  | .dict kvs =>
    match kvs.find? (fun p => p.1 == k) with
    | some p => .ok p.2
    | Option.none => .error (.keyError k)
  | _ => .error .typeError

/-- Whether an embedded Python value equals a given Python string
(Python == between a value and a string: only strings can be equal). -/
def PyVal.eqStr (v : PyVal) (k : String) : Bool :=
  match v with
  | .str s => s == k
  | _ => false

/-- Whether the character list `needle` is an initial segment of `hay`. -/
def PyVal.chunkLe : List Char → List Char → Bool
  | [], _ => true
  | _ :: _, [] => false
  | a :: as, b :: bs => a == b && PyVal.chunkLe as bs

/-- Whether the character list `needle` occurs contiguously inside `hay`
(Python substring membership). -/
def PyVal.chunkIn (needle : List Char) : List Char → Bool
  | [] => needle.isEmpty
  | b :: bs => PyVal.chunkLe needle (b :: bs) || PyVal.chunkIn needle bs

/-- Python membership test `k in v` with a string on the left: key membership
for dicts, element equality for lists, substring for strings, TypeError for
non-container values (None, bool, int). -/
def PyVal.containsStr (v : PyVal) (k : String) : Except PyErr Bool :=
  match v with
  | .dict kvs => .ok (kvs.any (fun p => p.1 == k))
  | .list xs => .ok (xs.any (fun x => x.eqStr k))
  | .str s => .ok (PyVal.chunkIn k.data s.data)
  | _ => .error .typeError

/-- Python iteration `for x in v`: elements for lists, one-character strings
for strings, keys for dicts, TypeError otherwise. -/
def PyVal.iterate : PyVal → Except PyErr (List PyVal)
  | .list xs => .ok xs
  | .str s => .ok (s.data.map (fun c => PyVal.str (String.mk [c])))
  | .dict kvs => .ok (kvs.map (fun p => PyVal.str p.1))
  | _ => .error .typeError

/-- A normalized detector record, as built by
`transforms_policies_to_detectors_list` and as read from the local bundle:
a Python dict with the keys Name, Check_ID and Regex. -/
structure Detector where
  Name : PyVal
  Check_ID : PyVal
  Regex : PyVal
deriving Repr

/-- The inner `for regex in ...` loop of the transformer
(custom_regex_detector.py lines 85-89): one detector per pattern entry,
with Check_ID falling back from a falsy `checkovCheckId` to `incidentId`,
the field lookups re-evaluated per iteration exactly as in the source. -/
def emitDetectors (secret_policy : PyVal) : List PyVal → Except PyErr (List Detector)
  | [] => .ok []
  | regex :: rest => do
    let ccid ← secret_policy.getItem "checkovCheckId"
    let check_id ← if ccid.truthy then pure ccid else secret_policy.getItem "incidentId"
    let title ← secret_policy.getItem "title"
    let d : Detector := { Name := title, Check_ID := check_id, Regex := regex }
    let ds ← emitDetectors secret_policy rest
    pure (d :: ds)

/-- Body of the per-record loop of `transforms_policies_to_detectors_list`
(custom_regex_detector.py lines 77-91): read the `code` field (KeyError when
absent), skip falsy code, parse it with `yaml.safe_load` (the parser is a
parameter; a parse failure propagates, there is no try/except in the source),
then walk the `definition` / `value` path with Python `in` tests and
subscripts, and emit one detector per entry of `definition.value`. -/
def processPolicy (safeLoad : PyVal → Except PyErr PyVal) (secret_policy : PyVal) :
    Except PyErr (List Detector) := do
  let code ← secret_policy.getItem "code"
  if code.truthy then
    let code_dict ← safeLoad code
    let hasDef ← code_dict.containsStr "definition"
    if hasDef then
      let defn ← code_dict.getItem "definition"
      let hasVal ← defn.containsStr "value"
      if hasVal then
        let value ← defn.getItem "value"
        let items ← value.iterate
        emitDetectors secret_policy items
      else pure []
    else pure []
  else pure []

/-- Embedding of `transforms_policies_to_detectors_list`
(custom_regex_detector.py lines 75-92): fold `processPolicy` over the batch,
appending the emitted detectors; any exception raised for one record aborts
the whole batch, exactly as in the source (which has no try/except). -/
def transforms_policies_to_detectors_list (safeLoad : PyVal → Except PyErr PyVal)
    (custom_secrets : List PyVal) : Except PyErr (List Detector) :=
  match custom_secrets with
  | [] => .ok []
  | p :: rest => do
    let ds ← processPolicy safeLoad p
    let rest2 ← transforms_policies_to_detectors_list safeLoad rest
    pure (ds ++ rest2)

/-- Embedding of `modify_secrets_policy_to_detectors`
(custom_regex_detector.py lines 69-72), which only logs and delegates. -/
def modify_secrets_policy_to_detectors (safeLoad : PyVal → Except PyErr PyVal)
    (policies_list : List PyVal) : Except PyErr (List Detector) :=
  transforms_policies_to_detectors_list safeLoad policies_list

/-- The tenant-keyed detector cache DETECTORS_BY_CUSTOMER_CACHE
(custom_regex_detector.py line 21), passed explicitly in the embedding. -/
abbrev Cache := List (String × List Detector)

/-- Python dict get on the cache. -/
def cacheGet (c : Cache) (k : String) : Option (List Detector) :=
  (c.find? (fun p => p.1 == k)).map (fun p => p.2)

/-- Python dict assignment on the cache: overwrite the entry holding the
key in place, or append a new entry. -/
def cacheSet : Cache → String → List Detector → Cache
  | [], k, v => [(k, v)]
  | e :: rest, k, v => if e.1 == k then (k, v) :: rest else e :: cacheSet rest k v

/-- Embedding of `get_detectors_from_cache` (custom_regex_detector.py lines
28-32): the empty list for a falsy customer name (None or empty string),
otherwise `cache.get(customer_name, [])`. -/
def get_detectors_from_cache (customer_name : Option String) (cache : Cache) :
    List Detector :=
  match customer_name with
  | some s => if s == "" then [] else (cacheGet cache s).getD []
  | Option.none => []

/-- Embedding of the module-level constant USE_LOCAL_FILE
(custom_regex_detector.py line 19): `os.getenv` yields the raw environment
string when the variable is set and the Python default True when it is not,
so the value is a string or a bool, never a parsed boolean of the string. -/
def USE_LOCAL_FILE (env_value : Option String) : PyVal :=
  match env_value with
  | some s => .str s
  | Option.none => .bool true

/-- The process environment and the behaviors of the two acquisition
collaborators (local bundle read and remote store fetch) plus the yaml
parser, all of which the embedding passes explicitly. -/
structure AcqEnv where
  customer_name : Option String
  use_local_file_env : Option String
  local_file : Except PyErr (List Detector)
  remote : Except PyErr PyVal
  safeLoad : PyVal → Except PyErr PyVal

/-- Result of one `load_detectors` call: the returned value (or the raised
exception), the cache afterwards, and how many local-file reads and remote
fetches the call performed. -/
structure LoadOutcome where
  res : Except PyErr (List Detector)
  cache : Cache
  localReads : Nat
  remoteFetches : Nat
deriving Repr

/-- The cache store step of `load_detectors` (line 62-63): store under the
customer key only when the customer name is truthy. -/
def storeInCache (customer_name : Option String) (cache : Cache)
    (ds : List Detector) : Cache :=
  match customer_name with
  | some s => if s == "" then cache else cacheSet cache s ds
  | Option.none => cache

/-- The tail of `load_detectors` after the try/except block (lines 57-66):
when `policies_list` is truthy, normalize a single dict to a one-element
list and run the transformer — whose exceptions are NOT caught, the
try/except above only covers acquisition — then store the result in the
cache for a truthy customer name and return it. -/
def load_finish (env : AcqEnv) (cache : Cache) (lr rf : Nat)
    (detectors : List Detector) (policies_list : PyVal) : LoadOutcome :=
  let step : Except PyErr (List Detector) :=
    if policies_list.truthy then do
      let norm := match policies_list with
        | .dict kvs => PyVal.list [.dict kvs]
        | other => other
      let items ← norm.iterate
      modify_secrets_policy_to_detectors env.safeLoad items
    else .ok detectors
  match step with
  | .error e => { res := .error e, cache := cache, localReads := lr, remoteFetches := rf }
  | .ok ds => { res := .ok ds, cache := storeInCache env.customer_name cache ds,
                localReads := lr, remoteFetches := rf }

/-- Embedding of `load_detectors` (custom_regex_detector.py lines 41-66).
A non-empty cache entry is returned immediately; an empty or missing entry
triggers acquisition: the local bundle when USE_LOCAL_FILE is truthy, the
remote store otherwise. Exceptions raised during acquisition are caught and
turn the call into an immediate empty return that does not touch the cache;
everything after the try/except is in `load_finish`. -/
def load_detectors (env : AcqEnv) (cache : Cache) : LoadOutcome :=
  let detectors := get_detectors_from_cache env.customer_name cache
  if !detectors.isEmpty then
    { res := .ok detectors, cache := cache, localReads := 0, remoteFetches := 0 }
  else
    if (USE_LOCAL_FILE env.use_local_file_env).truthy then
      match env.local_file with
      | .error _ => { res := .ok [], cache := cache, localReads := 1, remoteFetches := 0 }
      | .ok ds => load_finish env cache 1 0 ds (.list [])
    else
      match env.remote with
      | .error _ => { res := .ok [], cache := cache, localReads := 0, remoteFetches := 1 }
      | .ok v => load_finish env cache 0 1 detectors (if v.truthy then v else .list [])

/-- Character matchers of the regex fragment the detectors use: literal
characters, the word class (ASCII reading of backslash-w), the digit class
(backslash-d) and the dot. -/
inductive RClass where
  | lit (c : Char)
  | word
  | digit
  | any
deriving DecidableEq, Repr

/-- Whether a character matcher accepts a character. -/
def RClass.accepts : RClass → Char → Bool
  | .lit c, d => c == d
  | .word, d => d.isAlphanum || d == '_'
  | .digit, d => d.isDigit
  | .any, d => !(d == '\n')

/-- Abstract syntax of the regex fragment: empty word, character matcher,
concatenation, alternation, Kleene star, and numbered capture group. -/
inductive Regex where
  | eps
  | cls (m : RClass)
  | cat (r1 r2 : Regex)
  | alt (r1 r2 : Regex)
  | star (r : Regex)
  | group (idx : Nat) (r : Regex)
deriving DecidableEq, Repr

/-- Node count, used to bound the backtracking depth. -/
def Regex.size : Regex → Nat
  | .eps | .cls _ => 1
  | .cat a b | .alt a b => a.size + b.size + 1
  | .star r => r.size + 1
  | .group _ r => r.size + 1

/-- Number of capture groups in a pattern. -/
def Regex.nGroups : Regex → Nat
  | .eps | .cls _ => 0
  | .cat a b | .alt a b => a.nGroups + b.nGroups
  | .star r => r.nGroups
  | .group _ r => 1 + r.nGroups

/-- Capture-group assignments recorded during a match, most recent first. -/
abbrev Caps := List (Nat × String)

/-- The text a partial match consumed: the characters of `cs` that are no
longer present in its suffix `rest`. -/
def capturedText (cs rest : List Char) : String :=
  String.mk (cs.take (cs.length - rest.length))

/-- Backtracking matcher: all ways for the pattern to match a prefix of
`cs`, as (remaining suffix, captures) pairs in the priority order of the
Python re engine (alternation prefers the left branch, star is greedy, a
star iteration must consume input — which is how the engine avoids looping
on an empty body match). The fuel argument only bounds the recursion depth;
`Regex.runAll` supplies enough for the search to be exhaustive. -/
def runM : Nat → Regex → List Char → Caps → List (List Char × Caps)
  | 0, _, _, _ => []
  | fuel + 1, r, cs, caps =>
    match r with
    | .eps => [(cs, caps)]
    | .cls m =>
      match cs with
      | [] => []
      | c :: rest => if m.accepts c then [(rest, caps)] else []
    | .cat r1 r2 => (runM fuel r1 cs caps).flatMap (fun p => runM fuel r2 p.1 p.2)
    | .alt r1 r2 => runM fuel r1 cs caps ++ runM fuel r2 cs caps
    | .group i r1 =>
      (runM fuel r1 cs caps).map (fun p => (p.1, (i, capturedText cs p.1) :: p.2))
    | .star r1 =>
      ((runM fuel r1 cs caps).filter (fun p => p.1.length < cs.length)).flatMap
        (fun p => runM fuel (.star r1) p.1 p.2) ++ [(cs, caps)]

/-- All matches of the pattern at the start of `cs`, in priority order.
Every recursive call of `runM` either shrinks the pattern or keeps a star
node while strictly shrinking the input, so a depth of
(size + 1) * (length + 1) is never exhausted. -/
def Regex.runAll (r : Regex) (cs : List Char) : List (List Char × Caps) :=
  runM ((r.size + 1) * (cs.length + 1)) r cs []

/-- The match the Python re engine reports at this position: the first one
in backtracking priority order. -/
def Regex.matchFirst (r : Regex) (cs : List Char) : Option (List Char × Caps) :=
  (r.runAll cs).head?

/-- Left-to-right scan underlying `Pattern.findall`: report the first match
at the current position and resume after it, advancing one character after
an empty match or a failed position. -/
def findIterM : Nat → Regex → List Char → List (String × Caps)
  | 0, _, _ => []
  | fuel + 1, r, cs =>
    match r.matchFirst cs with
    | some (rest, caps) =>
      let m := capturedText cs rest
      if rest.length < cs.length then (m, caps) :: findIterM fuel r rest
      else
        (m, caps) ::
          (match cs with
           | [] => []
           | _ :: t => findIterM fuel r t)
    | Option.none =>
      match cs with
      | [] => []
      | _ :: t => findIterM fuel r t

/-- All non-overlapping matches of the pattern in a line, leftmost first,
as (full match, captures) pairs. -/
def Regex.findIter (r : Regex) (s : String) : List (String × Caps) :=
  findIterM (s.data.length + 1) r s.data

/-- The final value of one capture group: its most recent assignment, or
the empty string when the group did not participate in the match (this is
what `re.findall` reports for unmatched groups). -/
def groupValue (caps : Caps) (i : Nat) : String :=
  ((caps.find? (fun p => p.1 == i)).map (fun p => p.2)).getD ""

/-- The tuple of group values of one match, for groups 1 .. nGroups. -/
def Regex.groupsOf (r : Regex) (caps : Caps) : List String :=
  (List.range r.nGroups).map (fun i => groupValue caps (i + 1))

/-- One element of a `Pattern.findall` result: a plain string when the
pattern has at most one group, a tuple of group values otherwise. -/
inductive FindallItem where
  | single (s : String)
  | tup (gs : List String)
deriving DecidableEq, Repr

/-- Embedding of `Pattern.findall` as documented for the Python re module:
per match, the full match for a pattern without groups, the value of the
single group for a one-group pattern, and the tuple of group values for two
or more groups. -/
def Regex.findall (r : Regex) (s : String) : List FindallItem :=
  (r.findIter s).map (fun mc =>
    if r.nGroups == 0 then .single mc.1
    else if r.nGroups == 1 then .single ((r.groupsOf mc.2).headD "")
    else .tup (r.groupsOf mc.2))

/-- Metacharacters of the supported regex fragment. -/
def isRegexMeta (c : Char) : Bool :=
  c == '(' || c == ')' || c == '|' || c == '*' || c == '+' || c == '?' || c == '\\'

/-- Constructs outside the embedded fragment (classes in brackets, anchors,
counted repetition); compiling a pattern that uses them is not modelled. -/
def isRegexUnsupported (c : Char) : Bool :=
  c == '[' || c == ']' || c == '^' || c == '$' || c == Char.ofNat 123 || c == Char.ofNat 125

/-- Grammar level being parsed: alternation, concatenation, repeated atom,
or atom. -/
inductive PMode where
  | palt
  | pseq
  | prep
  | patom
deriving DecidableEq, Repr

/-- Recursive-descent reading of a pattern in the supported fragment, one
function for all four grammar levels, structurally recursive on fuel.
Groups are numbered by order of the opening parenthesis as in Python, the
state argument `g` holding the number of groups opened so far; postfix
star/plus/question are greedy; the left alternative of a bar keeps the
higher backtracking priority. -/
def parseF : Nat → PMode → Nat → List Char → Option (Regex × List Char × Nat)
  | 0, _, _, _ => Option.none
  | fuel + 1, mode, g, cs =>
    match mode with
    | .palt =>
      match parseF fuel .pseq g cs with
      | some (r, cs2, g2) =>
        match cs2 with
        | '|' :: rest =>
          match parseF fuel .palt g2 rest with
          | some (r2, cs3, g3) => some (.alt r r2, cs3, g3)
          | Option.none => Option.none
        | _ => some (r, cs2, g2)
      | Option.none => Option.none
    | .pseq =>
      match cs with
      | [] => some (.eps, [], g)
      | c :: _ =>
        if c == ')' || c == '|' then some (.eps, cs, g)
        else
          match parseF fuel .prep g cs with
          | some (r, cs2, g2) =>
            match parseF fuel .pseq g2 cs2 with
            | some (r2, cs3, g3) => some (.cat r r2, cs3, g3)
            | Option.none => Option.none
          | Option.none => Option.none
    | .prep =>
      match parseF fuel .patom g cs with
      | some (r, cs2, g2) =>
        match cs2 with
        | '*' :: rest => some (.star r, rest, g2)
        | '+' :: rest => some (.cat r (.star r), rest, g2)
        | '?' :: rest => some (.alt r .eps, rest, g2)
        | _ => some (r, cs2, g2)
      | Option.none => Option.none
    | .patom =>
      match cs with
      | [] => Option.none
      | c :: rest =>
        if c == '\\' then
          match rest with
          | [] => Option.none
          | e :: rest2 =>
            if e == 'w' then some (.cls .word, rest2, g)
            else if e == 'd' then some (.cls .digit, rest2, g)
            else some (.cls (.lit e), rest2, g)
        else if c == '(' then
          match parseF fuel .palt (g + 1) rest with
          | some (r, cs2, g2) =>
            match cs2 with
            | ')' :: rest2 => some (.group (g + 1) r, rest2, g2)
            | _ => Option.none
          | Option.none => Option.none
        else if c == '.' then some (.cls .any, rest, g)
        else if isRegexMeta c || isRegexUnsupported c then Option.none
        else some (.cls (.lit c), rest, g)

/-- A compiled matcher: the compiled regex together with the pattern source
string it came from (`Pattern.pattern` in Python, the metadata lookup key). -/
structure CompiledRegex where
  pattern : String
  regex : Regex
deriving DecidableEq, Repr

/-- Embedding of `re.compile` on the supported fragment: parse the whole
pattern or raise `re.error` for malformed or unsupported syntax. -/
def re_compile (pat : String) : Except PyErr CompiledRegex :=
  match parseF (4 * (pat.data.length + 2)) .palt 0 pat.data with
  | some (r, [], _) => .ok ⟨pat, r⟩
  | _ => .error (.reError pat)

/-- Embedding of `VerifiedResult` from detect_secrets.constants. -/
inductive VerifiedResult where
  | VERIFIED_FALSE
  | UNVERIFIED
  | VERIFIED_TRUE
deriving DecidableEq, Repr

/-- Modelled from the spec: `PotentialSecret` of the external detect_secrets
library (only declared and constructed in this repository). Per the data
model in the spec, a finding carries the rule name (`type`, copied from the
metadata Name), source location, matched value, verified flag and the
check id attached by `analyze_line`, and findings are deduplicated by the
(rule name, filename, value, line number, verified) key. -/
structure PotentialSecret where
  type : PyVal
  filename : String
  secret : String
  line_number : Int
  is_verified : Bool
  check_id : PyVal
deriving Repr

/-- The dedup identity of a finding: the (rule name, filename, value,
line number, verified) key of the spec. `check_id` is not part of the key. -/
def psSame (a b : PotentialSecret) : Bool :=
  PyVal.beq a.type b.type && a.filename == b.filename && a.secret == b.secret &&
    a.line_number == b.line_number && a.is_verified == b.is_verified

/-- Python set insertion on the accumulated findings: adding an element
equal to a present one is a no-op that keeps the present one. -/
def addFinding : List PotentialSecret → PotentialSecret → List PotentialSecret
  | [], ps => [ps]
  | q :: rest, ps => if psSame q ps then q :: rest else q :: addFinding rest ps

/-- The state `CustomRegexDetector.__init__` builds: the dict from the raw
Regex value of each detector to its metadata, and the denylist set of
compiled matchers. -/
structure CustomRegexDetector where
  regex_to_metadata : List (PyVal × Detector)
  denylist : List CompiledRegex
deriving Repr

/-- Python dict assignment on regex_to_metadata: a later detector with the
same Regex key overwrites the stored metadata in place. -/
def metaInsert : List (PyVal × Detector) → PyVal → Detector → List (PyVal × Detector)
  | [], k, v => [(k, v)]
  | q :: rest, k, v =>
    if PyVal.beq q.1 k then (k, v) :: rest else q :: metaInsert rest k v

/-- Python dict lookup on regex_to_metadata. -/
def metaLookup (m : List (PyVal × Detector)) (k : PyVal) : Option Detector :=
  (m.find? (fun p => PyVal.beq p.1 k)).map (fun p => p.2)

/-- Python set insertion on the denylist. The re module caches compiled
patterns, so compiling the same pattern string again yields the identical
Pattern object and the set keeps a single compiled matcher per pattern
string; the embedding identifies compiled matchers by their pattern. -/
def denyAdd : List CompiledRegex → CompiledRegex → List CompiledRegex
  | [], cr => [cr]
  | c :: rest, cr =>
    if c.pattern == cr.pattern then c :: rest else c :: denyAdd rest cr

/-- The per-detector loop of `CustomRegexDetector.__init__`
(custom_regex_detector.py lines 105-107): compile each Regex (`re.error`
propagates, there is no per-pattern handler), add the compiled matcher to
the denylist and record the metadata under the Regex key. Only string Regex
values are modelled; the source would stringify other values through
`str.format`, which no claim exercises. -/
def detectorInitLoop : List Detector → CustomRegexDetector →
    Except PyErr CustomRegexDetector
  | [], st => .ok st
  | d :: rest, st =>
    match d.Regex with
    | .str s =>
      match re_compile s with
      | .ok cr =>
        detectorInitLoop rest
          ⟨metaInsert st.regex_to_metadata (.str s) d, denyAdd st.denylist cr⟩
      | .error e => .error e
    | _ => .error .typeError

/-- Embedding of `CustomRegexDetector.__init__` (lines 100-107) applied to
an already resolved detector list (the source obtains it by calling
`load_detectors`, embedded separately). -/
def CustomRegexDetector_init (detectors : List Detector) :
    Except PyErr CustomRegexDetector :=
  detectorInitLoop detectors ⟨[], []⟩

/-- Embedding of `CustomRegexDetector.analyze_string` (lines 134-142): for
every compiled matcher in the denylist, run `findall` on the line; a tuple
result (a pattern with two or more groups) emits one value per truthy, that
is non-empty, submatch, and any other result is emitted unchanged. -/
def analyze_string (denylist : List CompiledRegex) (string : String) :
    List (String × CompiledRegex) :=
  denylist.flatMap (fun regex =>
    (regex.regex.findall string).flatMap (fun m =>
      match m with
      | .tup gs => (gs.filter (fun sub => !(sub == ""))).map (fun sub => (sub, regex))
      | .single s => [(s, regex)]))

/-- The loop body of `CustomRegexDetector.analyze_line` (lines 120-130):
for each scan result, call the verification hook — any exception it raises
is caught and means not verified, and only the VERIFIED_TRUE outcome sets
the flag — then build the finding from the metadata stored under the
pattern of the originating matcher and add it to the output set. -/
def buildFindings (st : CustomRegexDetector)
    (verify : String → Except PyErr VerifiedResult)
    (filename : String) (line_number : Int) :
    List (String × CompiledRegex) → List PotentialSecret →
    Except PyErr (List PotentialSecret)
  | [], output => .ok output
  | (m, regex) :: rest, output =>
    let is_verified : Bool :=
      match verify m with
      | .ok v => v == VerifiedResult.VERIFIED_TRUE
      | .error _ => false
    match metaLookup st.regex_to_metadata (.str regex.pattern) with
    | some md =>
      let ps : PotentialSecret :=
        { type := md.Name, filename := filename, secret := m,
          line_number := line_number, is_verified := is_verified,
          check_id := md.Check_ID }
      buildFindings st verify filename line_number rest (addFinding output ps)
    | Option.none => .error (.keyError regex.pattern)

/-- Embedding of `CustomRegexDetector.analyze_line` (lines 109-132): scan
the line with every compiled matcher and accumulate the findings into a
set. The Python set is determinized as a list in first-insertion order. -/
def analyze_line (st : CustomRegexDetector)
    (verify : String → Except PyErr VerifiedResult)
    (filename : String) (line : String) (line_number : Int) :
    Except PyErr (List PotentialSecret) :=
  buildFindings st verify filename line_number (analyze_string st.denylist line) []

/-!
Concrete fixtures used by counterexamples and witnesses: a yaml-parser
behavior, policy records, resolver environments, detectors and verification
hooks.
-/

/-- A concrete `yaml.safe_load` behavior: one well-formed code document, one
mapping without the definition key, one null document, parse failure
otherwise. -/
def sampleLoad : PyVal → Except PyErr PyVal := fun v =>
  match v with
  | .str "good" => .ok (.dict [("definition", .dict [("value", .list [.str "a+", .str "b+"])])])
  | .str "nodef" => .ok (.dict [("other", .none)])
  | .str "null" => .ok .none
  | _ => .error .yamlError

/-- A well-formed policy record whose checkovCheckId is the empty string. -/
def sampleRecord : PyVal :=
  .dict [("code", .str "good"), ("title", .str "T"), ("checkovCheckId", .str ""),
         ("incidentId", .str "INC-42")]

/-- Resolver environment: tenant c, local bundle present and empty. -/
def envLocalEmpty : AcqEnv :=
  { customer_name := some "c", use_local_file_env := Option.none,
    local_file := .ok [], remote := .error .fetchError, safeLoad := sampleLoad }

def dAws : Detector := ⟨.str "AWS Key", .str "CKV_SEC_1", .str "AKIA"⟩

/-- Resolver environment: tenant c, local bundle with one detector. -/
def envLocalOne : AcqEnv := { envLocalEmpty with local_file := .ok [dAws] }

/-- Resolver environment: remote branch active, the fetched policy record
fails to parse. -/
def envRemoteBad : AcqEnv :=
  { envLocalOne with
    use_local_file_env := some ""
    remote := .ok (.list [.dict [("code", .str "bad")]]) }

/-- Resolver environment: the USE_LOCAL_FILE variable set to "false". -/
def envULFalse : AcqEnv := { envLocalOne with use_local_file_env := some "false" }

/-- Resolver environment: the USE_LOCAL_FILE variable set to "0". -/
def envULZero : AcqEnv := { envLocalOne with use_local_file_env := some "0" }

/-- Resolver environment: the local bundle read raises. -/
def envLocalErr : AcqEnv := { envLocalOne with local_file := .error .fetchError }

def dSecret : Detector := ⟨.str "Secret rule", .str "CKV_X", .str "secret-\\d+"⟩

def dDup1 : Detector := ⟨.str "first", .str "ID1", .str "x\\d+"⟩

def dDup2 : Detector := ⟨.str "second", .str "ID2", .str "x\\d+"⟩

def dBadPat : Detector := ⟨.str "bad", .str "B", .str "("⟩

/-- A verification hook that always reports UNVERIFIED. -/
def vUnv : String → Except PyErr VerifiedResult := fun _ => .ok .UNVERIFIED

/-- A verification hook that always raises. -/
def vBoom : String → Except PyErr VerifiedResult := fun _ => .error .typeError

/-- The compiled one-group pattern a(b*). -/
def crAB : CompiledRegex := (re_compile "a(b*)").toOption.getD ⟨"", .eps⟩

/-- The compiled two-group alternation pattern of the spec example. -/
def crFooBar : CompiledRegex :=
  (re_compile "(foo-\\w+)|(bar-\\w+)").toOption.getD ⟨"", .eps⟩

/-- The compiled matcher of the dSecret fixture. -/
def crSecret : CompiledRegex := (re_compile "secret-\\d+").toOption.getD ⟨"", .eps⟩

/-- The detector state built from the dSecret fixture. -/
def stSecretS : CustomRegexDetector :=
  (CustomRegexDetector_init [dSecret]).toOption.getD ⟨[], []⟩

/-- The detector state built from the two duplicate-pattern fixtures. -/
def stDup : CustomRegexDetector :=
  (CustomRegexDetector_init [dDup1, dDup2]).toOption.getD ⟨[], []⟩

/-! Helper lemmas shared between the claim theorems. -/

theorem exceptBind_ok {ε α β : Type} (a : α) (f : α → Except ε β) :
    (Bind.bind (Except.ok a) f) = f a := rfl

theorem exceptBind_error {ε α β : Type} (e : ε) (f : α → Except ε β) :
    (Bind.bind (Except.error e : Except ε α) f) = Except.error e := rfl

theorem exceptPure {ε α : Type} (a : α) : (Pure.pure a : Except ε α) = Except.ok a := rfl

theorem use_local_truthy_of_ne (v : Option String) (hv : v ≠ some "") :
    (USE_LOCAL_FILE v).truthy = true := by
  match v with
  | Option.none => rfl
  | some s =>
    have hs : s ≠ "" := fun h => hv (by rw [h])
    simp [USE_LOCAL_FILE, PyVal.truthy, hs]

theorem load_finish_localReads (env : AcqEnv) (cache : Cache) (lr rf : Nat)
    (ds : List Detector) (pl : PyVal) :
    (load_finish env cache lr rf ds pl).localReads = lr := by
  simp only [load_finish]
  split <;> rfl

theorem load_finish_remoteFetches (env : AcqEnv) (cache : Cache) (lr rf : Nat)
    (ds : List Detector) (pl : PyVal) :
    (load_finish env cache lr rf ds pl).remoteFetches = rf := by
  simp only [load_finish]
  split <;> rfl

/-! Claim theorems. -/

/-- C10: any non-empty value of the USE_LOCAL_FILE environment variable —
"false" and "0" included — and the unset default are truthy, so
`load_detectors` takes the local-bundle branch and never performs a remote
fetch; only the empty string is falsy and disables the local branch, the
flag being a raw string never parsed as a boolean. -/
theorem use_local_file_string_truthiness :
    (∀ v : Option String, v ≠ some "" → (USE_LOCAL_FILE v).truthy = true) ∧
    ((USE_LOCAL_FILE (some "")).truthy = false) ∧
    (∀ (env : AcqEnv) (cache : Cache), env.use_local_file_env ≠ some "" →
      (load_detectors env cache).remoteFetches = 0) ∧
    (∀ (env : AcqEnv) (cache : Cache), env.use_local_file_env ≠ some "" →
      get_detectors_from_cache env.customer_name cache = [] →
      (load_detectors env cache).localReads = 1) ∧
    (∀ (env : AcqEnv) (cache : Cache), env.use_local_file_env = some "" →
      (load_detectors env cache).localReads = 0) := by
  refine ⟨use_local_truthy_of_ne, rfl, ?_, ?_, ?_⟩
  · intro env cache h
    have ht := use_local_truthy_of_ne _ h
    simp only [load_detectors, ht, if_true]
    split
    · rfl
    · split
      · rfl
      · exact load_finish_remoteFetches ..
  · intro env cache h hmiss
    have ht := use_local_truthy_of_ne _ h
    simp only [load_detectors, hmiss, List.isEmpty_nil, Bool.not_true,
      Bool.false_eq_true, if_false, ht, if_true]
    split
    · rfl
    · exact load_finish_localReads ..
  · intro env cache h
    have ht : (USE_LOCAL_FILE env.use_local_file_env).truthy = false := by
      rw [h]; rfl
    simp only [load_detectors, ht, Bool.false_eq_true, if_false]
    split
    · rfl
    · split
      · rfl
      · exact load_finish_localReads ..



/-- Witness for C10 at the concrete flag values "false" and "0". -/
theorem use_local_file_string_truthiness_witness :
    (USE_LOCAL_FILE (some "false")).truthy = true ∧
    (load_detectors envULFalse []).remoteFetches = 0 ∧
    (load_detectors envULZero []).localReads = 1 :=
  ⟨use_local_file_string_truthiness.1 (some "false") (by decide),
   use_local_file_string_truthiness.2.2.1 envULFalse [] (by decide),
   use_local_file_string_truthiness.2.2.2.1 envULZero [] (by decide) rfl⟩

/-- C5, counterexample: with the remote branch active and a policy record
whose code fails to parse, `load_detectors` raises — the exception from the
processing step after acquisition reaches the caller, contradicting the
claim that any exception in acquisition or subsequent processing is caught
and the call returns an empty sequence. -/
theorem load_detectors_propagates_transform_error :
    (load_detectors envRemoteBad []).res = .error .yamlError := rfl

/-- C5, amended: an exception raised during acquisition itself (local-file
read or remote fetch) is caught, and the call returns the empty sequence
without touching the cache; but exceptions raised in the subsequent
transformation of fetched policy records propagate to the caller (see the
counterexample). -/
theorem load_detectors_acquisition_errors_caught :
    (∀ (env : AcqEnv) (cache : Cache) (e : PyErr),
      env.local_file = .error e →
      (USE_LOCAL_FILE env.use_local_file_env).truthy = true →
      get_detectors_from_cache env.customer_name cache = [] →
      load_detectors env cache =
        { res := .ok [], cache := cache, localReads := 1, remoteFetches := 0 }) ∧
    (∀ (env : AcqEnv) (cache : Cache) (e : PyErr),
      env.remote = .error e →
      (USE_LOCAL_FILE env.use_local_file_env).truthy = false →
      get_detectors_from_cache env.customer_name cache = [] →
      load_detectors env cache =
        { res := .ok [], cache := cache, localReads := 0, remoteFetches := 1 }) := by
  constructor
  · intro env cache e hacq ht hmiss
    simp only [load_detectors, hmiss, List.isEmpty_nil, Bool.not_true,
      Bool.false_eq_true, if_false, ht, if_true, hacq]
  · intro env cache e hacq ht hmiss
    simp only [load_detectors, hmiss, List.isEmpty_nil, Bool.not_true,
      Bool.false_eq_true, if_false, ht, hacq]


/-- Witness for C5 at a concrete failing local read. -/
theorem load_detectors_acquisition_errors_caught_witness :
    load_detectors envLocalErr [] =
      { res := .ok [], cache := [], localReads := 1, remoteFetches := 0 } :=
  load_detectors_acquisition_errors_caught.1 envLocalErr [] .fetchError rfl rfl rfl

/-- C6, counterexample: with a tenant configured and an acquisition that
yields zero rules, the first `load_detectors` call does store the empty
sequence in the cache, yet the second call performs a further local-file
read — the empty cached entry is indistinguishable from a cache miss, so
the second call is not served from the cache as the claim states. -/
theorem empty_cache_entry_not_served :
    (load_detectors envLocalEmpty []).cache = [("c", [])] ∧
    (load_detectors envLocalEmpty (load_detectors envLocalEmpty []).cache).localReads = 1 :=
  ⟨rfl, rfl⟩

/-- C6, amended: after a call that completes acquisition without an
exception, the resulting rule sequence is stored in the cache even when it
is empty; when the stored sequence is non-empty, a later call for the same
tenant is served from the cache with no local-file read and no remote
fetch — but an empty stored sequence does not prevent re-acquisition,
because the cache-hit test treats an empty entry as a miss (see the
counterexample). -/
theorem load_detectors_cache_behavior :
    (∀ (env : AcqEnv) (cache : Cache) (ds : List Detector) (s : String),
      (USE_LOCAL_FILE env.use_local_file_env).truthy = true →
      env.local_file = .ok ds →
      env.customer_name = some s → s ≠ "" →
      get_detectors_from_cache env.customer_name cache = [] →
      load_detectors env cache =
        { res := .ok ds, cache := cacheSet cache s ds, localReads := 1, remoteFetches := 0 }) ∧
    (∀ (env : AcqEnv) (cache : Cache) (ds : List Detector) (s : String),
      env.customer_name = some s → s ≠ "" → cacheGet cache s = some ds → ds ≠ [] →
      load_detectors env cache =
        { res := .ok ds, cache := cache, localReads := 0, remoteFetches := 0 }) := by
  constructor
  · intro env cache ds s ht hacq hname hs hmiss
    have hpl : (PyVal.list []).truthy = false := rfl
    simp only [load_detectors, hmiss, List.isEmpty_nil, Bool.not_true,
      Bool.false_eq_true, if_false, ht, if_true, hacq]
    simp only [load_finish, hpl, Bool.false_eq_true, if_false, storeInCache, hname,
      beq_eq_false_iff_ne.mpr hs]
  · intro env cache ds s hname hs hget hne
    have hdet : get_detectors_from_cache env.customer_name cache = ds := by
      simp only [get_detectors_from_cache, hname, beq_eq_false_iff_ne.mpr hs,
        Bool.false_eq_true, if_false, hget, Option.getD_some]
    cases ds with
    | nil => exact absurd rfl hne
    | cons a t =>
      simp only [load_detectors, hdet, List.isEmpty_cons, Bool.not_false, if_true]

/-- Witness for C6: the empty result of the first fixture call is stored,
and a non-empty cache entry is served with no acquisition. -/
theorem load_detectors_cache_behavior_witness :
    load_detectors envLocalEmpty [] =
      { res := .ok [], cache := cacheSet [] "c" [], localReads := 1, remoteFetches := 0 } ∧
    load_detectors envLocalOne [("c", [dAws])] =
      { res := .ok [dAws], cache := [("c", [dAws])], localReads := 0, remoteFetches := 0 } :=
  ⟨load_detectors_cache_behavior.1 envLocalEmpty [] [] "c" rfl rfl rfl (by decide) rfl,
   load_detectors_cache_behavior.2 envLocalOne [("c", [dAws])] [dAws] "c" rfl (by decide)
     rfl (by simp)⟩

theorem transforms_cons (sl : PyVal → Except PyErr PyVal) (p : PyVal) (rest : List PyVal) :
    transforms_policies_to_detectors_list sl (p :: rest) =
      Bind.bind (processPolicy sl p) (fun ds =>
        Bind.bind (transforms_policies_to_detectors_list sl rest)
          (fun rest2 => Except.ok (ds ++ rest2))) := rfl

theorem processPolicy_code_error (sl : PyVal → Except PyErr PyVal) (r : PyVal) (e : PyErr)
    (h : r.getItem "code" = .error e) : processPolicy sl r = .error e := by
  simp only [processPolicy, h, exceptBind_error]

theorem processPolicy_code_falsy (sl : PyVal → Except PyErr PyVal) (r c : PyVal)
    (h : r.getItem "code" = .ok c) (hf : c.truthy = false) :
    processPolicy sl r = .ok [] := by
  simp only [processPolicy, h, exceptBind_ok, hf, Bool.false_eq_true, if_false, exceptPure]

theorem processPolicy_parse_error (sl : PyVal → Except PyErr PyVal) (r c : PyVal) (e : PyErr)
    (h : r.getItem "code" = .ok c) (ht : c.truthy = true) (hp : sl c = .error e) :
    processPolicy sl r = .error e := by
  simp only [processPolicy, h, exceptBind_ok, ht, if_true, hp, exceptBind_error]

theorem processPolicy_no_definition (sl : PyVal → Except PyErr PyVal) (r c : PyVal)
    (kvs : List (String × PyVal))
    (h : r.getItem "code" = .ok c) (ht : c.truthy = true) (hp : sl c = .ok (.dict kvs))
    (hnd : kvs.any (fun q => q.1 == "definition") = false) :
    processPolicy sl r = .ok [] := by
  simp only [processPolicy, h, exceptBind_ok, ht, if_true, hp, PyVal.containsStr, hnd,
    Bool.false_eq_true, if_false, exceptPure]

theorem processPolicy_no_value (sl : PyVal → Except PyErr PyVal) (r c : PyVal)
    (kvs dv : List (String × PyVal))
    (h : r.getItem "code" = .ok c) (ht : c.truthy = true) (hp : sl c = .ok (.dict kvs))
    (hcd : kvs.any (fun q => q.1 == "definition") = true)
    (hget : (PyVal.dict kvs).getItem "definition" = .ok (.dict dv))
    (hnv : dv.any (fun q => q.1 == "value") = false) :
    processPolicy sl r = .ok [] := by
  simp only [processPolicy, h, exceptBind_ok, ht, if_true, hp, PyVal.containsStr, hcd,
    hget, hnv, Bool.false_eq_true, if_false, exceptPure]

theorem transforms_skip (sl : PyVal → Except PyErr PyVal) (p : PyVal) (rest : List PyVal)
    (h : processPolicy sl p = .ok []) :
    transforms_policies_to_detectors_list sl (p :: rest) =
      transforms_policies_to_detectors_list sl rest := by
  rw [transforms_cons, h, exceptBind_ok]
  cases htr : transforms_policies_to_detectors_list sl rest with
  | error e => rw [exceptBind_error]
  | ok l => rw [exceptBind_ok, List.nil_append]

theorem transforms_abort (sl : PyVal → Except PyErr PyVal) (p : PyVal) (rest : List PyVal)
    (e : PyErr) (h : processPolicy sl p = .error e) :
    transforms_policies_to_detectors_list sl (p :: rest) = .error e := by
  rw [transforms_cons, h, exceptBind_error]

/-- C4, counterexample: the transformer is not exception-free on malformed
records — a record without a `code` key raises KeyError, a record whose
code fails yaml parsing raises and thereby aborts the processing of its
well-formed sibling record, and a record whose code parses to null raises
TypeError on the membership test — contradicting the claim that it never
raises and that one parse failure does not abort the batch. -/
theorem transformer_raises_on_malformed_records :
    transforms_policies_to_detectors_list sampleLoad [.dict [("x", .none)]] =
      .error (.keyError "code") ∧
    transforms_policies_to_detectors_list sampleLoad
      [.dict [("code", .str "bad")], sampleRecord] = .error .yamlError ∧
    transforms_policies_to_detectors_list sampleLoad [.dict [("code", .str "null")]] =
      .error .typeError := ⟨rfl, rfl, rfl⟩

/-- C4, amended: a record whose `code` field is present but falsy is
skipped silently; a record whose code parses to a mapping that lacks the
`definition` key, or whose `definition` is a mapping lacking the `value`
key, contributes zero rules without raising and without disturbing the
siblings; but a record with no `code` key at all raises KeyError, and a
yaml parse failure raises and aborts the whole batch (see the
counterexample). -/
theorem transformer_record_tolerance :
    (∀ (sl : PyVal → Except PyErr PyVal) (rest : List PyVal) (r c : PyVal),
      r.getItem "code" = .ok c → c.truthy = false →
      transforms_policies_to_detectors_list sl (r :: rest) =
        transforms_policies_to_detectors_list sl rest) ∧
    (∀ (sl : PyVal → Except PyErr PyVal) (rest : List PyVal) (r c : PyVal)
      (kvs : List (String × PyVal)),
      r.getItem "code" = .ok c → c.truthy = true → sl c = .ok (.dict kvs) →
      kvs.any (fun q => q.1 == "definition") = false →
      transforms_policies_to_detectors_list sl (r :: rest) =
        transforms_policies_to_detectors_list sl rest) ∧
    (∀ (sl : PyVal → Except PyErr PyVal) (rest : List PyVal) (r c : PyVal)
      (kvs dv : List (String × PyVal)),
      r.getItem "code" = .ok c → c.truthy = true → sl c = .ok (.dict kvs) →
      kvs.any (fun q => q.1 == "definition") = true →
      (PyVal.dict kvs).getItem "definition" = .ok (.dict dv) →
      dv.any (fun q => q.1 == "value") = false →
      transforms_policies_to_detectors_list sl (r :: rest) =
        transforms_policies_to_detectors_list sl rest) ∧
    (∀ (sl : PyVal → Except PyErr PyVal) (rest : List PyVal) (r : PyVal) (e : PyErr),
      r.getItem "code" = .error e →
      transforms_policies_to_detectors_list sl (r :: rest) = .error e) ∧
    (∀ (sl : PyVal → Except PyErr PyVal) (rest : List PyVal) (r c : PyVal) (e : PyErr),
      r.getItem "code" = .ok c → c.truthy = true → sl c = .error e →
      transforms_policies_to_detectors_list sl (r :: rest) = .error e) := by
  refine ⟨?_, ?_, ?_, ?_, ?_⟩
  · intro sl rest r c h hf
    exact transforms_skip sl r rest (processPolicy_code_falsy sl r c h hf)
  · intro sl rest r c kvs h ht hp hnd
    exact transforms_skip sl r rest (processPolicy_no_definition sl r c kvs h ht hp hnd)
  · intro sl rest r c kvs dv h ht hp hcd hget hnv
    exact transforms_skip sl r rest (processPolicy_no_value sl r c kvs dv h ht hp hcd hget hnv)
  · intro sl rest r e h
    exact transforms_abort sl r rest e (processPolicy_code_error sl r e h)
  · intro sl rest r c e h ht hp
    exact transforms_abort sl r rest e (processPolicy_parse_error sl r c e h ht hp)

/-- Witness for C4 at concrete tolerated records: empty code and a parsed
mapping without the definition key. -/
theorem transformer_record_tolerance_witness :
    transforms_policies_to_detectors_list sampleLoad [.dict [("code", .str "")]] =
      transforms_policies_to_detectors_list sampleLoad [] ∧
    transforms_policies_to_detectors_list sampleLoad [.dict [("code", .str "nodef")]] =
      transforms_policies_to_detectors_list sampleLoad [] :=
  ⟨transformer_record_tolerance.1 sampleLoad [] (.dict [("code", .str "")]) (.str "") rfl rfl,
   transformer_record_tolerance.2.1 sampleLoad [] (.dict [("code", .str "nodef")])
     (.str "nodef") [("other", .none)] rfl rfl rfl rfl⟩

theorem emitDetectors_ok (r : PyVal) (ttl ccid incid : PyVal)
    (h1 : r.getItem "checkovCheckId" = .ok ccid)
    (h2 : r.getItem "incidentId" = .ok incid)
    (h3 : r.getItem "title" = .ok ttl) :
    ∀ ps : List PyVal, emitDetectors r ps =
      .ok (ps.map (fun p =>
        { Name := ttl, Check_ID := if ccid.truthy then ccid else incid, Regex := p })) := by
  intro ps
  induction ps with
  | nil => rfl
  | cons a t ih =>
    cases hct : ccid.truthy with
    | true =>
      simp only [emitDetectors, h1, exceptBind_ok, hct, if_true, exceptPure, h3, ih,
        List.map_cons]
    | false =>
      simp only [emitDetectors, h1, exceptBind_ok, hct, Bool.false_eq_true, if_false, h2,
        h3, ih, List.map_cons, exceptPure]

/-- C7: a policy record whose parsed code holds the `definition.value` list
yields exactly one detector rule per pattern entry, each named by the
record title, with rule id `checkovCheckId` when that value is truthy and
`incidentId` otherwise. -/
theorem transformer_emits_rule_per_pattern :
    ∀ (sl : PyVal → Except PyErr PyVal) (codeS : String) (ttl ccid incid : PyVal)
      (ps : List PyVal),
      codeS ≠ "" →
      sl (.str codeS) = .ok (.dict [("definition", .dict [("value", .list ps)])]) →
      transforms_policies_to_detectors_list sl
        [.dict [("code", .str codeS), ("title", ttl), ("checkovCheckId", ccid),
                ("incidentId", incid)]] =
        .ok (ps.map (fun p =>
          { Name := ttl, Check_ID := if ccid.truthy then ccid else incid, Regex := p })) := by
  intro sl codeS ttl ccid incid ps hcs hsl
  set r : PyVal := .dict [("code", .str codeS), ("title", ttl), ("checkovCheckId", ccid),
    ("incidentId", incid)] with hr
  have h1 : r.getItem "code" = .ok (.str codeS) := rfl
  have h2 : (PyVal.str codeS).truthy = true := by
    simp [PyVal.truthy, hcs]
  have h3 : (PyVal.dict [("definition", PyVal.dict [("value", PyVal.list ps)])]).containsStr
      "definition" = .ok true := rfl
  have h4 : (PyVal.dict [("definition", PyVal.dict [("value", PyVal.list ps)])]).getItem
      "definition" = .ok (.dict [("value", PyVal.list ps)]) := rfl
  have h5 : (PyVal.dict [("value", PyVal.list ps)]).containsStr "value" = .ok true := rfl
  have h6 : (PyVal.dict [("value", PyVal.list ps)]).getItem "value" = .ok (.list ps) := rfl
  have h7 : (PyVal.list ps).iterate = .ok ps := rfl
  have hemit := emitDetectors_ok r ttl ccid incid rfl rfl rfl ps
  have hproc : processPolicy sl r = .ok (ps.map (fun p =>
      { Name := ttl, Check_ID := if ccid.truthy then ccid else incid, Regex := p })) := by
    simp only [processPolicy, h1, exceptBind_ok, h2, if_true, hsl, h3, h4, h5, h6, h7,
      hemit]
  rw [transforms_cons, hproc, exceptBind_ok]
  show Bind.bind (Except.ok ([] : List Detector)) _ = _
  rw [exceptBind_ok, List.append_nil]

/-- Witness for C7 at the fixture record, exercising the fallback from the
falsy check id to the incident id INC-42. -/
theorem transformer_emits_rule_per_pattern_witness :
    transforms_policies_to_detectors_list sampleLoad [sampleRecord] =
      .ok [⟨.str "T", .str "INC-42", .str "a+"⟩, ⟨.str "T", .str "INC-42", .str "b+"⟩] := by
  have h := transformer_emits_rule_per_pattern sampleLoad "good" (.str "T") (.str "")
    (.str "INC-42") [.str "a+", .str "b+"] (by decide) rfl
  exact h

theorem pyval_beq_str (x : PyVal) (a : String) :
    PyVal.beq x (.str a) = true ↔ x = .str a := by
  cases x <;> simp [PyVal.beq]

theorem pyval_beq_str_str (a b : String) :
    PyVal.beq (PyVal.str a) (PyVal.str b) = (a == b) := rfl

theorem metaLookup_insert_str (m : List (PyVal × Detector)) (a b : String) (v : Detector) :
    metaLookup (metaInsert m (.str a) v) (.str b) =
      if a == b then some v else metaLookup m (.str b) := by
  induction m with
  | nil =>
    cases hab : a == b <;>
      simp [metaInsert, metaLookup, List.find?_cons, pyval_beq_str_str, hab]
  | cons q rest ih =>
    obtain ⟨q1, q2⟩ := q
    by_cases hq : PyVal.beq q1 (.str a) = true
    · have hq1 : q1 = .str a := (pyval_beq_str q1 a).mp hq
      subst hq1
      rw [metaInsert, if_pos hq]
      cases hab : a == b
      · simp only [metaLookup, List.find?_cons, pyval_beq_str_str, hab, cond_false,
          Bool.false_eq_true, if_false]
      · have hab2 : a = b := by simpa using hab
        subst hab2
        simp only [metaLookup, List.find?_cons, pyval_beq_str_str, hab, cond_true, if_true]
        rfl
    · have hqf : PyVal.beq q1 (.str a) = false := by simpa using hq
      rw [metaInsert, if_neg hq]
      by_cases hqb : PyVal.beq q1 (.str b) = true
      · have hq1 : q1 = .str b := (pyval_beq_str q1 b).mp hqb
        have hab : (a == b) = false := by
          cases hbe : a == b
          · rfl
          · exfalso
            have hab2 : a = b := by simpa using hbe
            subst hab2
            rw [hq1, pyval_beq_str_str] at hqf
            simp at hqf
        simp only [metaLookup, List.find?_cons, hqb, cond_true, hab,
          Bool.false_eq_true, if_false]
      · have hqbf : PyVal.beq q1 (.str b) = false := by simpa using hqb
        simp only [metaLookup, List.find?_cons, hqbf, cond_false]
        exact ih

theorem option_none_or {α : Type} (o : Option α) : Option.or Option.none o = o := rfl

theorem option_some_or {α : Type} (a : α) (o : Option α) :
    Option.or (some a) o = some a := rfl

theorem option_or_none {α : Type} (o : Option α) : Option.or o Option.none = o := by
  cases o <;> rfl

theorem mem_denyAdd (dl : List CompiledRegex) (cr x : CompiledRegex)
    (h : x ∈ denyAdd dl cr) : x ∈ dl ∨ x = cr := by
  induction dl with
  | nil =>
    simp only [denyAdd, List.mem_singleton] at h
    exact Or.inr h
  | cons c rest ih =>
    by_cases hc : (c.pattern == cr.pattern) = true
    · rw [denyAdd, if_pos hc] at h
      exact Or.inl h
    · rw [denyAdd, if_neg hc] at h
      rcases List.mem_cons.mp h with h1 | h1
      · exact Or.inl (h1 ▸ List.mem_cons_self c rest)
      · rcases ih h1 with h2 | h2
        · exact Or.inl (List.mem_cons_of_mem c h2)
        · exact Or.inr h2

theorem denyAdd_pairwise (dl : List CompiledRegex) (cr : CompiledRegex)
    (h : dl.Pairwise (fun a b => (a.pattern == b.pattern) = false)) :
    (denyAdd dl cr).Pairwise (fun a b => (a.pattern == b.pattern) = false) := by
  induction dl with
  | nil => simp [denyAdd]
  | cons c rest ih =>
    rcases List.pairwise_cons.mp h with ⟨hc1, hc2⟩
    by_cases hc : (c.pattern == cr.pattern) = true
    · rw [denyAdd, if_pos hc]
      exact h
    · rw [denyAdd, if_neg hc]
      refine List.pairwise_cons.mpr ⟨?_, ih hc2⟩
      intro y hy
      rcases mem_denyAdd rest cr y hy with h1 | h1
      · exact hc1 y h1
      · subst h1
        simpa using hc

theorem denyAdd_any (dl : List CompiledRegex) (cr : CompiledRegex) (p : String) :
    (denyAdd dl cr).any (fun c => c.pattern == p) =
      (dl.any (fun c => c.pattern == p) || (cr.pattern == p)) := by
  induction dl with
  | nil => simp [denyAdd]
  | cons c rest ih =>
    by_cases hc : (c.pattern == cr.pattern) = true
    · have hcp : cr.pattern = c.pattern := (beq_iff_eq.mp hc).symm
      rw [denyAdd, if_pos hc, hcp]
      cases h1 : (c.pattern == p) <;>
        cases h2 : rest.any (fun c => c.pattern == p) <;>
          simp [List.any_cons, h1, h2]
    · rw [denyAdd, if_neg hc]
      simp [List.any_cons, ih, Bool.or_assoc]

theorem re_compile_pattern (s : String) (cr : CompiledRegex) (h : re_compile s = .ok cr) :
    cr.pattern = s := by
  unfold re_compile at h
  split at h
  · cases h
    rfl
  · cases h

theorem detectorInitLoop_ok (ds : List Detector) :
    ∀ (st0 st : CustomRegexDetector), detectorInitLoop ds st0 = .ok st →
      (st0.denylist.Pairwise (fun a b => (a.pattern == b.pattern) = false) →
        st.denylist.Pairwise (fun a b => (a.pattern == b.pattern) = false)) ∧
      (∀ p : String, st.denylist.any (fun c => c.pattern == p) =
        (st0.denylist.any (fun c => c.pattern == p) ||
          ds.any (fun d => PyVal.beq d.Regex (.str p)))) ∧
      (∀ p : String, metaLookup st.regex_to_metadata (.str p) =
        ((ds.filter (fun d => PyVal.beq d.Regex (.str p))).getLast?).or
          (metaLookup st0.regex_to_metadata (.str p))) := by
  induction ds with
  | nil =>
    intro st0 st h
    simp only [detectorInitLoop, Except.ok.injEq] at h
    subst h
    exact ⟨fun hd => hd, fun p => by simp, fun p => by simp⟩
  | cons d rest ih =>
    intro st0 st h
    cases hreg : d.Regex with
    | str s =>
      cases hc : re_compile s with
      | error e =>
        simp only [detectorInitLoop, hreg, hc] at h
        exact Except.noConfusion h
      | ok cr =>
        simp only [detectorInitLoop, hreg, hc] at h
        obtain ⟨ih1, ih2, ih3⟩ :=
          ih ⟨metaInsert st0.regex_to_metadata (.str s) d, denyAdd st0.denylist cr⟩ st h
        have hpat : cr.pattern = s := re_compile_pattern s cr hc
        have ih1' : (denyAdd st0.denylist cr).Pairwise
            (fun a b => (a.pattern == b.pattern) = false) →
            st.denylist.Pairwise (fun a b => (a.pattern == b.pattern) = false) := ih1
        have ih2' : ∀ p : String, st.denylist.any (fun c => c.pattern == p) =
            ((denyAdd st0.denylist cr).any (fun c => c.pattern == p) ||
              rest.any (fun d => PyVal.beq d.Regex (.str p))) := ih2
        have ih3' : ∀ p : String, metaLookup st.regex_to_metadata (.str p) =
            ((rest.filter (fun d => PyVal.beq d.Regex (.str p))).getLast?).or
              (metaLookup (metaInsert st0.regex_to_metadata (.str s) d) (.str p)) := ih3
        refine ⟨?_, ?_, ?_⟩
        · intro hd0
          exact ih1' (denyAdd_pairwise st0.denylist cr hd0)
        · intro p
          rw [ih2' p]
          simp only [List.any_cons, hreg, pyval_beq_str_str, denyAdd_any, hpat,
            Bool.or_assoc]
        · intro p
          rw [ih3' p]
          rw [metaLookup_insert_str]
          have hfil : List.filter (fun d => PyVal.beq d.Regex (.str p)) (d :: rest) =
              if (s == p) = true
              then d :: List.filter (fun d => PyVal.beq d.Regex (.str p)) rest
              else List.filter (fun d => PyVal.beq d.Regex (.str p)) rest := by
            rw [List.filter_cons]
            simp only [hreg, pyval_beq_str_str]
          rw [hfil]
          cases hab : s == p
          · simp only [Bool.false_eq_true, if_false]
          · simp only [if_true]
            cases hfr : List.filter (fun d => PyVal.beq d.Regex (.str p)) rest with
            | nil => rfl
            | cons y ys =>
              rw [List.getLast?_cons_cons]
              cases hgl : (y :: ys).getLast? with
              | none => exact absurd (List.getLast?_eq_none_iff.mp hgl) (by simp)
              | some z => rfl
    | none =>
      simp only [detectorInitLoop, hreg] at h
      exact Except.noConfusion h
    | bool b =>
      simp only [detectorInitLoop, hreg] at h
      exact Except.noConfusion h
    | int n =>
      simp only [detectorInitLoop, hreg] at h
      exact Except.noConfusion h
    | list xs =>
      simp only [detectorInitLoop, hreg] at h
      exact Except.noConfusion h
    | dict kvs =>
      simp only [detectorInitLoop, hreg] at h
      exact Except.noConfusion h

/-- C8: when the resolved rule sequence is compiled, duplicate pattern
strings collapse to a single compiled matcher in the denylist (membership
matching exactly the patterns of the rules), and the metadata mapping for
a pattern retains the last rule in the sequence carrying it — a later rule
silently overwrites an earlier one. -/
theorem init_collapses_duplicate_patterns :
    ∀ (ds : List Detector) (st : CustomRegexDetector),
      CustomRegexDetector_init ds = .ok st →
      st.denylist.Pairwise (fun a b => (a.pattern == b.pattern) = false) ∧
      (∀ p : String, st.denylist.any (fun c => c.pattern == p) =
        ds.any (fun d => PyVal.beq d.Regex (.str p))) ∧
      (∀ p : String, metaLookup st.regex_to_metadata (.str p) =
        (ds.filter (fun d => PyVal.beq d.Regex (.str p))).getLast?) := by
  intro ds st h
  obtain ⟨h1, h2, h3⟩ := detectorInitLoop_ok ds ⟨[], []⟩ st h
  refine ⟨h1 List.Pairwise.nil, fun p => ?_, fun p => ?_⟩
  · rw [h2 p]
    simp
  · rw [h3 p]
    simp [metaLookup]


/-- Witness for C8 on two rules sharing one pattern: a duplicate-free
denylist and the metadata of the later rule. -/
theorem init_collapses_duplicate_patterns_witness :
    stDup.denylist.Pairwise (fun a b => (a.pattern == b.pattern) = false) ∧
    metaLookup stDup.regex_to_metadata (.str "x\\d+") = some dDup2 := by
  obtain ⟨h1, h2, h3⟩ := init_collapses_duplicate_patterns [dDup1, dDup2] stDup rfl
  exact ⟨h1, by rw [h3]; rfl⟩

/-- C9: a malformed pattern anywhere in the resolved rule sequence makes
the whole compilation step fail — `CustomRegexDetector.__init__` raises at
construction time instead of skipping the bad pattern. -/
theorem init_fails_on_malformed_pattern :
    ∀ (ds : List Detector) (d : Detector) (s : String) (e0 : PyErr),
      d ∈ ds → d.Regex = .str s → re_compile s = .error e0 →
      ∃ e : PyErr, CustomRegexDetector_init ds = .error e := by
  have loop : ∀ (ds : List Detector) (st0 : CustomRegexDetector) (d : Detector)
      (s : String) (e0 : PyErr), d ∈ ds → d.Regex = .str s → re_compile s = .error e0 →
      ∃ e, detectorInitLoop ds st0 = .error e := by
    intro ds
    induction ds with
    | nil =>
      intro st0 d s e0 hmem
      exact absurd hmem (List.not_mem_nil d)
    | cons a rest ih =>
      intro st0 d s e0 hmem hreg hc
      rcases List.mem_cons.mp hmem with h | h
      · subst h
        simp only [detectorInitLoop, hreg, hc]
        exact ⟨e0, rfl⟩
      · cases hra : a.Regex with
        | str s2 =>
          cases hc2 : re_compile s2 with
          | error e2 =>
            simp only [detectorInitLoop, hra, hc2]
            exact ⟨e2, rfl⟩
          | ok cr =>
            simp only [detectorInitLoop, hra, hc2]
            exact ih _ d s e0 h hreg hc
        | none => simp only [detectorInitLoop, hra]; exact ⟨.typeError, rfl⟩
        | bool b => simp only [detectorInitLoop, hra]; exact ⟨.typeError, rfl⟩
        | int n => simp only [detectorInitLoop, hra]; exact ⟨.typeError, rfl⟩
        | list xs => simp only [detectorInitLoop, hra]; exact ⟨.typeError, rfl⟩
        | dict kvs => simp only [detectorInitLoop, hra]; exact ⟨.typeError, rfl⟩
  intro ds d s e0 hmem hreg hc
  exact loop ds ⟨[], []⟩ d s e0 hmem hreg hc


/-- Witness for C9: one unbalanced-parenthesis pattern fails the whole
two-rule compilation. -/
theorem init_fails_on_malformed_pattern_witness :
    ∃ e, CustomRegexDetector_init [dSecret, dBadPat] = .error e :=
  init_fails_on_malformed_pattern [dSecret, dBadPat] dBadPat "(" (.reError "(")
    (by simp) rfl rfl



/-- C1, counterexample: for the one-group pattern a(b*) on the line "a",
the single match has exactly one capture group whose value is empty, and
`analyze_string` emits that empty value instead of dropping it — findall
returns a plain string, not a tuple, for one-group patterns, so the
truthiness filter of the tuple branch never runs. The claim predicts an
empty emission here. -/
theorem analyze_string_emits_empty_single_group_value :
    crAB.regex.nGroups = 1 ∧
    analyze_string [crAB] "a" = [("", crAB)] := ⟨rfl, rfl⟩

theorem flatMapOverMap {α β γ : Type} (l : List α) (f : α → β) (g : β → List γ) :
    (l.map f).flatMap g = l.flatMap (fun x => g (f x)) := by
  induction l with
  | nil => rfl
  | cons a t ih => simp only [List.map_cons, List.flatMap_cons, ih]

/-- C1, amended: per non-overlapping match, `analyze_string` emits the full
match when the pattern has no groups; for a pattern with two or more
groups it emits exactly one result per non-empty group value, dropping the
empty ones; for a one-group pattern it emits the single group value as-is,
even when that value is empty. The two-group alternation example matches
only its first branch and yields exactly one result with the first group
text. -/
theorem analyze_string_emission_characterization :
    (∀ (dl : List CompiledRegex) (s : String),
      analyze_string dl s =
        dl.flatMap (fun cr =>
          (cr.regex.findIter s).flatMap (fun mc =>
            if cr.regex.nGroups == 0 then [(mc.1, cr)]
            else if cr.regex.nGroups == 1 then [((cr.regex.groupsOf mc.2).headD "", cr)]
            else ((cr.regex.groupsOf mc.2).filter (fun g => !(g == ""))).map
              (fun g => (g, cr))))) ∧
    analyze_string [crFooBar] "foo-123" = [("foo-123", crFooBar)] := by
  constructor
  · intro dl s
    unfold analyze_string
    congr 1
    funext cr
    rw [Regex.findall, flatMapOverMap]
    congr 1
    funext mc
    cases h0 : cr.regex.nGroups == 0
    · cases h1 : cr.regex.nGroups == 1
      · simp only [h0, h1, Bool.false_eq_true, if_false]
      · simp only [h0, h1, Bool.false_eq_true, if_false, if_true]
    · simp only [h0, if_true]
  · rfl



theorem mem_addFinding (out : List PotentialSecret) (ps x : PotentialSecret)
    (h : x ∈ addFinding out ps) : x ∈ out ∨ x = ps := by
  induction out with
  | nil =>
    simp only [addFinding, List.mem_singleton] at h
    exact Or.inr h
  | cons q rest ih =>
    by_cases hq : psSame q ps = true
    · rw [addFinding, if_pos hq] at h
      exact Or.inl h
    · rw [addFinding, if_neg hq] at h
      rcases List.mem_cons.mp h with h1 | h1
      · exact Or.inl (h1 ▸ List.mem_cons_self q rest)
      · rcases ih h1 with h2 | h2
        · exact Or.inl (List.mem_cons_of_mem q h2)
        · exact Or.inr h2

theorem addFinding_pairwise (out : List PotentialSecret) (ps : PotentialSecret)
    (h : out.Pairwise (fun a b => psSame a b = false)) :
    (addFinding out ps).Pairwise (fun a b => psSame a b = false) := by
  induction out with
  | nil => simp [addFinding]
  | cons q rest ih =>
    rcases List.pairwise_cons.mp h with ⟨hq1, hq2⟩
    by_cases hq : psSame q ps = true
    · rw [addFinding, if_pos hq]
      exact h
    · rw [addFinding, if_neg hq]
      refine List.pairwise_cons.mpr ⟨?_, ih hq2⟩
      intro y hy
      rcases mem_addFinding rest ps y hy with h1 | h1
      · exact hq1 y h1
      · subst h1
        simpa using hq

theorem buildFindings_ok_pairwise (st : CustomRegexDetector)
    (verify : String → Except PyErr VerifiedResult) (f : String) (n : Int) :
    ∀ (mts : List (String × CompiledRegex)) (output out : List PotentialSecret),
      buildFindings st verify f n mts output = .ok out →
      output.Pairwise (fun a b => psSame a b = false) →
      out.Pairwise (fun a b => psSame a b = false) := by
  intro mts
  induction mts with
  | nil =>
    intro output out h hout
    simp only [buildFindings, Except.ok.injEq] at h
    exact h ▸ hout
  | cons pr rest ih =>
    obtain ⟨m, cr⟩ := pr
    intro output out h hout
    cases hmd : metaLookup st.regex_to_metadata (.str cr.pattern) with
    | none =>
      simp only [buildFindings, hmd] at h
      exact Except.noConfusion h
    | some md =>
      simp only [buildFindings, hmd] at h
      exact ih _ out h (addFinding_pairwise output _ hout)

/-- C2: the findings returned by `analyze_line` are deduplicated by the
(rule name, filename, value, line number, verified) identity, and in the
fixture line containing the same secret twice the scanner yields two raw
results that collapse to a single finding. -/
theorem analyze_line_findings_deduplicated :
    (∀ (st : CustomRegexDetector) (verify : String → Except PyErr VerifiedResult)
      (f line : String) (n : Int) (out : List PotentialSecret),
      analyze_line st verify f line n = .ok out →
      out.Pairwise (fun a b => psSame a b = false)) ∧
    (analyze_string stSecretS.denylist "secret-1 and secret-1").length = 2 ∧
    (∃ out, analyze_line stSecretS vUnv "f" "secret-1 and secret-1" 7 = .ok out ∧
      out.length = 1) := by
  refine ⟨?_, rfl, ?_⟩
  · intro st verify f line n out h
    exact buildFindings_ok_pairwise st verify f n (analyze_string st.denylist line) []
      out h List.Pairwise.nil
  · exact ⟨[⟨.str "Secret rule", "f", "secret-1", 7, false, .str "CKV_X"⟩], rfl, rfl⟩

/-- Witness for C2: the deduplication invariant at the concrete fixture
output. -/
theorem analyze_line_findings_deduplicated_witness :
    ([⟨.str "Secret rule", "f", "secret-1", 7, false, .str "CKV_X"⟩] :
      List PotentialSecret).Pairwise (fun a b => psSame a b = false) :=
  analyze_line_findings_deduplicated.1 stSecretS vUnv "f" "secret-1 and secret-1" 7 _ rfl

theorem analyze_string_mem (dl : List CompiledRegex) (s m : String)
    (cr : CompiledRegex) (h : (m, cr) ∈ analyze_string dl s) : cr ∈ dl := by
  unfold analyze_string at h
  rcases List.mem_flatMap.mp h with ⟨c, hc, hin⟩
  rcases List.mem_flatMap.mp hin with ⟨item, hitem, hpair⟩
  cases item with
  | tup gs =>
    rcases List.mem_map.mp hpair with ⟨g, hg, heq⟩
    cases heq
    exact hc
  | single s2 =>
    have := List.mem_singleton.mp hpair
    cases this
    exact hc

theorem buildFindings_verified (st : CustomRegexDetector)
    (verify : String → Except PyErr VerifiedResult) (f : String) (n : Int) :
    ∀ (mts : List (String × CompiledRegex)) (output : List PotentialSecret),
      (∀ pr ∈ mts, ∃ md, metaLookup st.regex_to_metadata (.str pr.2.pattern) = some md) →
      (∀ ps ∈ output,
        (ps.is_verified = true ↔ verify ps.secret = .ok VerifiedResult.VERIFIED_TRUE)) →
      ∃ out, buildFindings st verify f n mts output = .ok out ∧
        ∀ ps ∈ out,
          (ps.is_verified = true ↔ verify ps.secret = .ok VerifiedResult.VERIFIED_TRUE) := by
  intro mts
  induction mts with
  | nil =>
    intro output hm hout
    exact ⟨output, rfl, hout⟩
  | cons pr rest ih =>
    obtain ⟨m, cr⟩ := pr
    intro output hm hout
    obtain ⟨md, hmd⟩ := hm (m, cr) (List.mem_cons_self (m, cr) rest)
    have hadd : ∀ ps ∈ addFinding output
        { type := md.Name, filename := f, secret := m, line_number := n,
          is_verified := match verify m with
            | .ok v => v == VerifiedResult.VERIFIED_TRUE
            | .error _ => false,
          check_id := md.Check_ID },
        (ps.is_verified = true ↔ verify ps.secret = .ok VerifiedResult.VERIFIED_TRUE) := by
      intro ps hps
      rcases mem_addFinding output _ ps hps with h1 | h1
      · exact hout ps h1
      · subst h1
        show (match verify m with
          | .ok v => v == VerifiedResult.VERIFIED_TRUE
          | .error _ => false) = true ↔ verify m = .ok VerifiedResult.VERIFIED_TRUE
        cases hv : verify m with
        | ok v =>
          simp [beq_iff_eq]
        | error e =>
          simp
    obtain ⟨out, hb, hP⟩ := ih (addFinding output _)
      (fun pr hpr => hm pr (List.mem_cons_of_mem _ hpr)) hadd
    refine ⟨out, ?_, hP⟩
    simp only [buildFindings, hmd]
    exact hb

/-- C3: for any behavior of the verification hook — including raising an
exception — `analyze_line` (given metadata covering its denylist patterns)
returns its finding set without propagating the exception, and a finding
is verified exactly when the hook returned the VERIFIED_TRUE sentinel on
its secret. -/
theorem analyze_line_verified_iff_hook_true :
    ∀ (st : CustomRegexDetector) (verify : String → Except PyErr VerifiedResult)
      (f line : String) (n : Int),
      (∀ cr ∈ st.denylist,
        ∃ md, metaLookup st.regex_to_metadata (.str cr.pattern) = some md) →
      ∃ out, analyze_line st verify f line n = .ok out ∧
        ∀ ps ∈ out,
          (ps.is_verified = true ↔ verify ps.secret = .ok VerifiedResult.VERIFIED_TRUE) := by
  intro st verify f line n hcov
  have hm : ∀ pr ∈ analyze_string st.denylist line, ∃ md,
      metaLookup st.regex_to_metadata (.str pr.2.pattern) = some md := by
    intro pr hpr
    obtain ⟨m, cr⟩ := pr
    exact hcov cr (analyze_string_mem st.denylist line m cr hpr)
  exact buildFindings_verified st verify f n (analyze_string st.denylist line) [] hm
    (fun ps hps => absurd hps (List.not_mem_nil ps))

/-- Witness for C3 with a hook that always raises: the scan still returns
its finding and marks it unverified. -/
theorem analyze_line_verified_iff_hook_true_witness :
    ∃ out, analyze_line stSecretS vBoom "f" "secret-1" 7 = .ok out ∧
      ∀ ps ∈ out,
        (ps.is_verified = true ↔ vBoom ps.secret = .ok VerifiedResult.VERIFIED_TRUE) := by
  refine analyze_line_verified_iff_hook_true stSecretS vBoom "f" "secret-1" 7 ?_
  intro cr hcr
  have hd : stSecretS.denylist = [crSecret] := rfl
  rw [hd] at hcr
  have := List.mem_singleton.mp hcr
  subst this
  exact ⟨dSecret, rfl⟩
